import Mathlib

/-!
Verification of the ERC20 front-end integration layer: the asynchronous
operation state trackers of `useERC20Interactions.ts` and `useERC20Deploy.ts`,
the deployment gateway wrapper of `deployment.ts`, the ethers-based library
functions, and the decimal formatting / parsing performed through the external
viem and ethers libraries.  Gateways (chain reads/writes, the deployment HTTP
service) are modelled as explicit environments supplying each call's outcome;
JavaScript thrown values and their normalization at catch sites are modelled
explicitly.
-/

namespace ERC20Front

/-- Decidable equality for `Except`, used by the run records below. -/
instance {ε α : Type} [DecidableEq ε] [DecidableEq α] : DecidableEq (Except ε α) := fun a b =>
  match a, b with
  | .ok x, .ok y =>
    if h : x = y then .isTrue (by rw [h]) else .isFalse (by intro hc; cases hc; exact h rfl)
  | .error x, .error y =>
    if h : x = y then .isTrue (by rw [h]) else .isFalse (by intro hc; cases hc; exact h rfl)
  | .ok _, .error _ => .isFalse (by intro hc; cases hc)
  | .error _, .ok _ => .isFalse (by intro hc; cases hc)

/-- Error value carrying a message, modelling a JavaScript `Error` object. -/
structure JsError where
  message : String
  deriving DecidableEq, Repr

/-- Value thrown by JavaScript code: either an `Error` object or a raw value,
the latter modelled by its `String(err)` conversion. -/
inductive Thrown where
  | err (e : JsError)
  | raw (s : String)
  deriving DecidableEq, Repr

/-- Normalization performed at catch sites:
`err instanceof Error ? err : new Error(String(err))`. -/
def normalizeError : Thrown → JsError
  | .err e => e
  | .raw s => ⟨s⟩

/-- JS falsiness test for an optional string: `undefined` and the empty string
are falsy. -/
def jsFalsyOptStr : Option String → Bool
  | none => true
  | some s => s = ""

/-- JS `v || fallback` for an optional string field. -/
def jsStringOr (v : Option String) (fallback : String) : String :=
  match v with
  | none => fallback
  | some s => if s = "" then fallback else s

/-! ## Decimal digit machinery

The viem and ethers unit-formatting functions manipulate decimal digit
strings.  We model digit sequences as `List Nat` (values < 10) and map to
characters only at the boundary.  Recursion is by explicit fuel so that every
definition is structurally recursive and kernel-evaluable. -/

/-- Little-endian decimal digits with explicit fuel; `[]` for 0. -/
def toDigitsLEAux : Nat → Nat → List Nat
  | 0, _ => []
  | fuel + 1, n => if n = 0 then [] else n % 10 :: toDigitsLEAux fuel (n / 10)

/-- Little-endian decimal digits of a natural number. -/
def natDigitsLE (n : Nat) : List Nat :=
  toDigitsLEAux n n

/-- Big-endian (most significant first) decimal digits of a natural number. -/
def natDigitsBE (n : Nat) : List Nat :=
  (natDigitsLE n).reverse

/-- Character for a decimal digit value. -/
def digitChar (d : Nat) : Char :=
  Char.ofNat (48 + d)

/-- Decimal character representation of a natural number, modelling
`BigInt.prototype.toString` for nonnegative values. -/
def natToChars (n : Nat) : List Char :=
  if n = 0 then ['0'] else (natDigitsBE n).map digitChar

/-- Pad a digit list with zeros at the front to length `d`, modelling
`String.prototype.padStart` with "0" on a digit string. -/
def padLeftZeros (d : Nat) (l : List Nat) : List Nat :=
  List.replicate (d - l.length) 0 ++ l

/-- Remove trailing zero digits, modelling the `/(0+)$/` trim. -/
def trimTrailingZeros (l : List Nat) : List Nat :=
  (l.reverse.dropWhile (fun x => x = 0)).reverse

/-- Numeric value of a big-endian digit list. -/
def beVal (l : List Nat) : Nat :=
  Nat.ofDigits 10 l.reverse

/-- Model of viem's `formatUnits(value, decimals)` (external dependency) for
nonnegative values: the decimal representation of `value` is split `decimals`
digits from the end (arithmetically, division and remainder by
`10 ^ decimals`); the fractional part keeps its leading zeros and drops its
trailing zeros; an empty integer part renders as "0" and an empty fractional
part drops the dot. -/
def viemFormatUnits (value decimals : Nat) : String :=
  let integer := value / 10 ^ decimals
  let fraction :=
    trimTrailingZeros (padLeftZeros decimals (natDigitsBE (value % 10 ^ decimals)))
  ⟨natToChars integer ++ if fraction = [] then [] else '.' :: fraction.map digitChar⟩

/-- Model of ethers' `formatUnits(value, decimals)` (external dependency) for
nonnegative values and positive `decimals` as used by this repository: like
viem's, but a decimal point is always rendered and a single zero is kept when
the fractional part is empty. -/
def ethersFormatUnits (value decimals : Nat) : String :=
  let integer := value / 10 ^ decimals
  let fraction :=
    trimTrailingZeros (padLeftZeros decimals (natDigitsBE (value % 10 ^ decimals)))
  ⟨natToChars integer ++ '.' :: (if fraction = [] then ['0'] else fraction.map digitChar)⟩

/-- Split a character list at each character satisfying `p`, modelling
`String.prototype.split`. -/
def splitChars (p : Char → Bool) : List Char → List (List Char)
  | [] => [[]]
  | c :: rest =>
    match splitChars p rest with
    | [] => if p c then [[], []] else [[c]]
    | h :: t => if p c then [] :: h :: t else (c :: h) :: t

/-- Numeric value of a list of decimal digit characters, modelling `BigInt`
applied to a nonnegative all-digit string; the empty list gives 0, matching
its behaviour under string concatenation. -/
def charDigitsVal (s : List Char) : Nat :=
  s.foldl (fun a c => a * 10 + (c.toNat - 48)) 0

/-- Remove trailing "0" characters, modelling `replace(/(0+)$/, '')`. -/
def trimTrailingZeroChars (s : List Char) : List Char :=
  (s.reverse.dropWhile (fun c => c = '0')).reverse

/-- Pad with "0" characters at the end to length `d`, modelling
`String.prototype.padEnd`. -/
def padEndZeroChars (s : List Char) (d : Nat) : List Char :=
  s ++ List.replicate (d - s.length) '0'

/-- Pad with "0" characters at the front to length `d`, modelling
`String.prototype.padStart`. -/
def padStartZeroChars (s : List Char) (d : Nat) : List Char :=
  List.replicate (d - s.length) '0' ++ s

/-- Model of viem's `parseUnits(value, decimals)` (external dependency) for
nonnegative decimal-string inputs.  The string is split at the dot, the
fraction is trimmed of trailing zeros, then padded to `decimals` digits (or
rounded when longer than `decimals`; the float `Math.round` of the source is
modelled as exact decimal rounding, half away from zero), and the concatenated
digit string is read as an integer. -/
def viemParseUnits (value : String) (decimals : Nat) : Nat :=
  let parts := splitChars (fun c => c = '.') value.data
  let integer := parts.headD []
  let fraction0 := (parts.drop 1).headD ['0']
  let fraction := trimTrailingZeroChars fraction0
  if decimals = 0 then
    charDigitsVal integer + (if '5' ≤ fraction.headD '0' then 1 else 0)
  else if decimals < fraction.length then
    let left := fraction.take (decimals - 1)
    let unit := (fraction.drop (decimals - 1)).take 1
    let right := fraction.drop decimals
    let rounded := charDigitsVal unit + (if '5' ≤ right.headD '0' then 1 else 0)
    let fraction1 :=
      if 9 < rounded then
        padStartZeroChars (natToChars (charDigitsVal left + 1) ++ ['0']) (left.length + 1)
      else
        left ++ natToChars rounded
    let step :=
      if decimals < fraction1.length then
        (natToChars (charDigitsVal integer + 1), fraction1.drop 1)
      else
        (integer, fraction1)
    charDigitsVal (step.1 ++ step.2.take decimals)
  else
    charDigitsVal (integer ++ padEndZeroChars fraction decimals)

/-- Fixed decimal precision used for amount encoding and balance/allowance
formatting (`constants.ts`). -/
def TOKEN_DECIMALS : Nat := 18

/-! ## Domain data model (`types.ts`) -/

/-- Async state for data fetching (`AsyncState<T>` in `types.ts`). -/
inductive AsyncState (α : Type) where
  | idle
  | loading
  | success (data : α)
  | error (e : JsError)
  deriving DecidableEq, Repr

/-- Transaction lifecycle state (`TransactionState` in `types.ts`). -/
inductive TransactionState where
  | idle
  | pending
  | confirming (hash : String)
  | success (hash : String)
  | error (e : JsError)
  deriving DecidableEq, Repr

/-- Token snapshot (`TokenInfo` in `types.ts`). -/
structure TokenInfo where
  address : String
  name : String
  symbol : String
  decimals : Nat
  totalSupply : Nat
  formattedTotalSupply : String
  owner : String
  paused : Bool
  deriving DecidableEq, Repr

/-- Balance snapshot (`BalanceInfo` in `types.ts`). -/
structure BalanceInfo where
  balance : Nat
  formatted : String
  deriving DecidableEq, Repr

/-- Allowance snapshot (`AllowanceInfo` in `types.ts`). -/
structure AllowanceInfo where
  allowance : Nat
  formatted : String
  deriving DecidableEq, Repr

/-! ## Read-refresh operations (`useERC20Interactions.ts` and the ethers lib) -/

/-- Outcomes of the six ERC20 view calls issued together by the token-info
fetch. -/
structure TokenReadsEnv where
  name : Except Thrown String
  symbol : Except Thrown String
  decimals : Except Thrown Nat
  totalSupply : Except Thrown Nat
  owner : Except Thrown String
  paused : Except Thrown Bool

/-- Combination of the six reads as by `Promise.all`: all values when every
read succeeds, otherwise a failed read's thrown value (taken in field order,
modelling the settled rejection). -/
def promiseAll6 (env : TokenReadsEnv) :
    Except Thrown (String × String × Nat × Nat × String × Bool) := do
  let n ← env.name
  let s ← env.symbol
  let dec ← env.decimals
  let ts ← env.totalSupply
  let ow ← env.owner
  let p ← env.paused
  return (n, s, dec, ts, ow, p)

/-- Observable outcome of one `refetchTokenInfo` run: the resulting tracked
state, the states set during the run in order, and the number of gateway
reads issued. -/
structure TokenInfoRun where
  finalState : AsyncState TokenInfo
  statesSet : List (AsyncState TokenInfo)
  gatewayCalls : Nat
  deriving DecidableEq

/-- Model of `refetchTokenInfo` (`useERC20Interactions.ts`): with no public
client it returns immediately, leaving the previous state untouched and
issuing no read; otherwise the six view reads are issued together and the
state moves through loading to success (formatting the total supply with the
fetched decimals) or to error with the normalized thrown value. -/
def refetchTokenInfo (publicClient : Option Unit) (contractAddress : String)
    (prev : AsyncState TokenInfo) (env : TokenReadsEnv) : TokenInfoRun :=
  match publicClient with
  | none => ⟨prev, [], 0⟩
  | some _ =>
    match promiseAll6 env with
    | .ok (n, s, dec, ts, ow, p) =>
      let info : TokenInfo := ⟨contractAddress, n, s, dec, ts, viemFormatUnits ts dec, ow, p⟩
      ⟨.success info, [.loading, .success info], 6⟩
    | .error t =>
      ⟨.error (normalizeError t), [.loading, .error (normalizeError t)], 6⟩

/-- Observable outcome of one `refetchBalance` run. -/
structure BalanceRun where
  finalState : AsyncState BalanceInfo
  statesSet : List (AsyncState BalanceInfo)
  gatewayCalls : Nat
  outcome : Except JsError Unit
  deriving DecidableEq

/-- Model of `refetchBalance` (`useERC20Interactions.ts`): with no public
client or no (or empty) user address the state is reset to idle, no read is
issued and no error is raised; otherwise one balanceOf read is issued and the
state moves through loading to success (formatted with the fixed
`TOKEN_DECIMALS`) or to error with the normalized thrown value. -/
def refetchBalance (publicClient : Option Unit) (userAddress : Option String)
    (prev : AsyncState BalanceInfo) (read : Except Thrown Nat) : BalanceRun :=
  if publicClient.isNone || jsFalsyOptStr userAddress then
    ⟨.idle, [.idle], 0, .ok ()⟩
  else
    match read with
    | .ok v =>
      let info : BalanceInfo := ⟨v, viemFormatUnits v TOKEN_DECIMALS⟩
      ⟨.success info, [.loading, .success info], 1, .ok ()⟩
    | .error t =>
      ⟨.error (normalizeError t), [.loading, .error (normalizeError t)], 1, .ok ()⟩

/-- Model of `getAllowance` (`useERC20Interactions.ts`): a missing client or a
missing (or empty) user address raises synchronously before any read;
otherwise one allowance read is issued, formatted with the fixed
`TOKEN_DECIMALS`, read failures propagating unnormalized.  The second
component counts the gateway reads issued. -/
def getAllowance (publicClient : Option Unit) (userAddress : Option String)
    (read : Except Thrown Nat) : Except Thrown AllowanceInfo × Nat :=
  if publicClient.isNone || jsFalsyOptStr userAddress then
    (.error (.err ⟨"Public client and user address are required"⟩), 0)
  else
    match read with
    | .ok v => (.ok ⟨v, viemFormatUnits v TOKEN_DECIMALS⟩, 1)
    | .error t => (.error t, 1)

/-- Model of `getTokenInfo` (ethers lib): the six view reads combined, the
formatted total supply computed with the fetched decimals via ethers'
`formatUnits`; thrown values propagate to the caller. -/
def getTokenInfo (contractAddress : String) (env : TokenReadsEnv) :
    Except Thrown TokenInfo :=
  match promiseAll6 env with
  | .ok (n, s, dec, ts, ow, p) =>
    .ok ⟨contractAddress, n, s, dec, ts, ethersFormatUnits ts dec, ow, p⟩
  | .error t => .error t

/-- Model of `getBalance` (ethers lib): one balanceOf read, formatted with the
fixed `TOKEN_DECIMALS`. -/
def getBalance (read : Except Thrown Nat) : Except Thrown BalanceInfo :=
  match read with
  | .ok v => .ok ⟨v, ethersFormatUnits v TOKEN_DECIMALS⟩
  | .error t => .error t

/-- Model of the ethers lib `getAllowance`: one allowance read, formatted with
the fixed `TOKEN_DECIMALS`. -/
def libGetAllowance (read : Except Thrown Nat) : Except Thrown AllowanceInfo :=
  match read with
  | .ok v => .ok ⟨v, ethersFormatUnits v TOKEN_DECIMALS⟩
  | .error t => .error t

/-! ## Write + confirm operation (`executeTransaction` and its wrappers) -/

/-- Argument passed in a contract call. -/
inductive CallArg where
  | addr (a : String)
  | uint (n : Nat)
  deriving DecidableEq, Repr

/-- Chain gateway used by `executeTransaction`: simulation, submission and
receipt wait, each able to throw; `σ` is the opaque prepared-request type
returned by simulation and passed to submission. -/
structure ExecEnv (σ : Type) where
  simulateContract : String → List CallArg → Except Thrown σ
  writeContract : σ → Except Thrown String
  waitForTransactionReceipt : String → Except Thrown Unit

/-- Observable outcome of one `executeTransaction` run: the transaction
states set in order, the `setError` calls in order, the gateway calls issued,
and the returned hash or thrown error. -/
structure ExecResult (σ : Type) where
  txStatesSet : List TransactionState
  errorSets : List (Option JsError)
  simulateCalls : List (String × List CallArg)
  writeCalls : List σ
  waitCalls : List String
  result : Except JsError String
  deriving DecidableEq

/-- Model of `executeTransaction` (`useERC20Interactions.ts`): a missing
wallet or public client throws synchronously before any gateway call;
otherwise the state is set to pending, the call is simulated, submitted
(state confirming with the returned hash), and awaited (state success with
the same hash); a throw at any of the three steps is normalized, recorded via
`setError`, stored as the error state and re-thrown. -/
def executeTransaction {σ : Type} (walletClient publicClient : Option Unit)
    (env : ExecEnv σ) (functionName : String) (args : List CallArg) : ExecResult σ :=
  if walletClient.isNone || publicClient.isNone then
    ⟨[], [], [], [], [], .error ⟨"Wallet client is required for transactions"⟩⟩
  else
    match env.simulateContract functionName args with
    | .error t =>
      let e := normalizeError t
      ⟨[.pending, .error e], [none, some e], [(functionName, args)], [], [], .error e⟩
    | .ok request =>
      match env.writeContract request with
      | .error t =>
        let e := normalizeError t
        ⟨[.pending, .error e], [none, some e], [(functionName, args)], [request], [],
          .error e⟩
      | .ok hash =>
        match env.waitForTransactionReceipt hash with
        | .error t =>
          let e := normalizeError t
          ⟨[.pending, .confirming hash, .error e], [none, some e], [(functionName, args)],
            [request], [hash], .error e⟩
        | .ok _ =>
          ⟨[.pending, .confirming hash, .success hash], [none], [(functionName, args)],
            [request], [hash], .ok hash⟩

/-- Model of `transfer` (`useERC20Interactions.ts`): the decimal amount is
encoded with the fixed `TOKEN_DECIMALS` and the write pipeline runs for
"transfer" with the recipient and raw amount as arguments. -/
def transfer {σ : Type} (walletClient publicClient : Option Unit) (env : ExecEnv σ)
    (toAddr amount : String) : ExecResult σ :=
  executeTransaction walletClient publicClient env "transfer"
    [CallArg.addr toAddr, CallArg.uint (viemParseUnits amount TOKEN_DECIMALS)]

/-! ## Deployment layer (`deployment.ts` and `useERC20Deploy.ts`) -/

/-- ASCII lowercase of a string, modelling `String.prototype.toLowerCase` on
addresses (which are ASCII). -/
def lowerStr (s : String) : String :=
  ⟨s.data.map Char.toLower⟩

/-- Model of `isTokenRegistered` (`deployment.ts`): a failing
`getAllDeployedTokens` read yields false; otherwise case-insensitive
membership of the token address in the returned list. -/
def isTokenRegistered (tokenAddress : String)
    (readAllTokens : Except Thrown (List String)) : Bool :=
  match readAllTokens with
  | .error _ => false
  | .ok allTokens => allTokens.any (fun addr => lowerStr addr == lowerStr tokenAddress)

/-- Deployment result shape returned to callers (`DeployTokenResult` in
`types.ts`); optional fields model possibly-absent JSON fields. -/
structure DeployTokenResult where
  tokenAddress : Option String
  txHash : String
  success : Bool
  deployOutput : Option String
  initOutput : Option String
  registerOutput : Option String
  deriving DecidableEq, Repr

/-- JSON body of a deployment-gateway response; every field may be absent. -/
structure DeployResponseBody where
  error : Option String
  tokenAddress : Option String
  txHash : Option String
  success : Bool
  deployOutput : Option String
  initOutput : Option String
  registerOutput : Option String
  deriving DecidableEq, Repr

/-- HTTP response from the deployment gateway: `ok` is the 2xx flag and
`json` is the parsed body or the body-parse failure. -/
structure HttpResponse where
  ok : Bool
  status : Nat
  json : Except Thrown DeployResponseBody

/-- Model of `deployERC20TokenViaAPI` (`deployment.ts`), taking the fetch
outcome as environment: a rejected fetch propagates; a non-ok response throws
an `Error` whose message is the body's error string or, when that is absent,
empty or unparsable, a fallback message; an ok response maps the body to the
result verbatim except that `txHash` is defaulted to "0x" when missing or
empty. -/
def deployERC20TokenViaAPI (fetchResult : Except Thrown HttpResponse) :
    Except Thrown DeployTokenResult :=
  match fetchResult with
  | .error t => .error t
  | .ok response =>
    if response.ok = false then
      let errorData : DeployResponseBody :=
        match response.json with
        | .ok b => b
        | .error _ => ⟨some "Unknown error", none, none, false, none, none, none⟩
      .error (.err ⟨jsStringOr errorData.error
        ("Deployment failed with status " ++ toString response.status)⟩)
    else
      match response.json with
      | .error t => .error t
      | .ok r =>
        .ok ⟨r.tokenAddress, jsStringOr r.txHash "0x", r.success,
          r.deployOutput, r.initOutput, r.registerOutput⟩

/-- Deployment lifecycle state (`DeploymentState` in `types.ts`). -/
inductive DeploymentState where
  | idle
  | deploying
  | activating
  | initializing
  | registering
  | success (result : DeployTokenResult)
  | error (e : JsError)
  deriving DecidableEq, Repr

/-- Observable outcome of one `deployToken` run. -/
structure DeployRun where
  finalState : DeploymentState
  statesSet : List DeploymentState
  errorSets : List (Option JsError)
  apiCalled : Bool
  result : Except JsError DeployTokenResult
  deriving DecidableEq

/-- Model of `deployToken` (`useERC20Deploy.ts`): a missing (or empty)
private key throws synchronously before the gateway request, leaving the
tracked state untouched; otherwise the state moves to deploying, the request
is made, and the state becomes success carrying the result, or error carrying
the normalized thrown value, which is also re-thrown to the caller. -/
def deployToken (privateKey : Option String) (prev : DeploymentState)
    (fetchResult : Except Thrown HttpResponse) : DeployRun :=
  if jsFalsyOptStr privateKey then
    ⟨prev, [], [], false, .error ⟨"Private key is required for deployment"⟩⟩
  else
    match deployERC20TokenViaAPI fetchResult with
    | .ok r => ⟨.success r, [.deploying, .success r], [none], true, .ok r⟩
    | .error t =>
      let e := normalizeError t
      ⟨.error e, [.deploying, .error e], [none, some e], true, .error e⟩

/-! ## Helper lemmas -/

/-- Shape of the simulate calls issued by a precondition-satisfying
`executeTransaction` run: exactly one, with the given function name and
arguments, in every outcome. -/
theorem executeTransaction_simulateCalls {σ : Type} (env : ExecEnv σ) (fn : String)
    (args : List CallArg) :
    (executeTransaction (some ()) (some ()) env fn args).simulateCalls = [(fn, args)] := by
  cases hsim : env.simulateContract fn args with
  | error t => simp [executeTransaction, hsim]
  | ok q =>
    cases hw : env.writeContract q with
    | error t => simp [executeTransaction, hsim, hw]
    | ok h =>
      cases hwait : env.waitForTransactionReceipt h with
      | error t => simp [executeTransaction, hsim, hw, hwait]
      | ok u => simp [executeTransaction, hsim, hw, hwait]

/-- Digit extraction with enough fuel agrees with `Nat.digits` in base 10. -/
theorem toDigitsLEAux_eq_digits :
    ∀ (fuel n : Nat), n ≤ fuel → toDigitsLEAux fuel n = Nat.digits 10 n := by
  intro fuel
  induction fuel with
  | zero =>
    intro n hn
    have h0 : n = 0 := Nat.le_zero.mp hn
    subst h0
    simp [toDigitsLEAux]
  | succ f ih =>
    intro n hn
    by_cases h0 : n = 0
    · subst h0
      simp [toDigitsLEAux]
    · have hpos : 0 < n := Nat.pos_of_ne_zero h0
      have hd : n / 10 < n := Nat.div_lt_self hpos (by norm_num)
      rw [Nat.digits_def' (by norm_num : (1 : Nat) < 10) hpos]
      show (if n = 0 then [] else n % 10 :: toDigitsLEAux f (n / 10)) = _
      rw [if_neg h0, ih (n / 10) (by omega)]

/-- The little-endian digits function agrees with `Nat.digits` in base 10. -/
theorem natDigitsLE_eq_digits (n : Nat) : natDigitsLE n = Nat.digits 10 n :=
  toDigitsLEAux_eq_digits n n le_rfl

/-- Value of the big-endian digits of a number is the number itself. -/
theorem beVal_natDigitsBE (n : Nat) : beVal (natDigitsBE n) = n := by
  unfold beVal natDigitsBE
  rw [List.reverse_reverse, natDigitsLE_eq_digits, Nat.ofDigits_digits]

/-- Every big-endian digit of a number is below the base. -/
theorem natDigitsBE_lt (n : Nat) : ∀ d ∈ natDigitsBE n, d < 10 := by
  intro d hd
  unfold natDigitsBE at hd
  rw [List.mem_reverse, natDigitsLE_eq_digits] at hd
  exact Nat.digits_lt_base (by norm_num) hd

/-- Value of an appended big-endian digit list. -/
theorem beVal_append (a b : List Nat) :
    beVal (a ++ b) = beVal a * 10 ^ b.length + beVal b := by
  unfold beVal
  rw [List.reverse_append, Nat.ofDigits_append, List.length_reverse]
  ring

/-- A block of zero digits has value zero. -/
theorem beVal_replicate_zero (k : Nat) : beVal (List.replicate k 0) = 0 := by
  induction k with
  | zero => rfl
  | succ m ih =>
    have hsplit : List.replicate (m + 1) 0 = [0] ++ List.replicate m 0 := by
      simp [List.replicate_succ]
    rw [hsplit, beVal_append, ih]
    simp [beVal, Nat.ofDigits]

/-- Left zero padding does not change the value of a digit list. -/
theorem beVal_padLeftZeros (d : Nat) (l : List Nat) :
    beVal (padLeftZeros d l) = beVal l := by
  unfold padLeftZeros
  rw [beVal_append, beVal_replicate_zero]
  simp

/-- Left zero padding to at least the current length produces exactly the
requested length. -/
theorem length_padLeftZeros (d : Nat) (l : List Nat) (h : l.length ≤ d) :
    (padLeftZeros d l).length = d := by
  simp only [padLeftZeros, List.length_append, List.length_replicate]
  omega

/-- Every digit of a left zero padded list is below the base if the original
digits are. -/
theorem padLeftZeros_lt (d : Nat) (l : List Nat) (hl : ∀ x ∈ l, x < 10) :
    ∀ x ∈ padLeftZeros d l, x < 10 := by
  intro x hx
  unfold padLeftZeros at hx
  rw [List.mem_append] at hx
  rcases hx with hx | hx
  · have := List.eq_of_mem_replicate hx
    omega
  · exact hl x hx

/-- Trimming trailing zeros splits a digit list into its trimmed part and a
zero block. -/
theorem trimTrailingZeros_spec (l : List Nat) :
    ∃ k, l = trimTrailingZeros l ++ List.replicate k 0 := by
  refine ⟨(l.reverse.takeWhile (fun x => x = 0)).length, ?_⟩
  unfold trimTrailingZeros
  conv_lhs =>
    rw [← List.reverse_reverse l,
      ← List.takeWhile_append_dropWhile (p := fun x : Nat => x = 0) (l := l.reverse)]
  rw [List.reverse_append]
  congr 1
  have hall : ∀ b ∈ l.reverse.takeWhile (fun x => x = 0), b = 0 := by
    intro b hb
    have := List.mem_takeWhile_imp hb
    simpa using this
  calc (l.reverse.takeWhile (fun x => x = 0)).reverse
      = (List.replicate (l.reverse.takeWhile (fun x => x = 0)).length 0).reverse := by
        rw [← List.eq_replicate_of_mem hall]
    _ = List.replicate (l.reverse.takeWhile (fun x => x = 0)).length 0 := by
        rw [List.reverse_replicate]

/-- Membership is preserved by trimming trailing zeros. -/
theorem trimTrailingZeros_mem (l : List Nat) (x : Nat) (hx : x ∈ trimTrailingZeros l) :
    x ∈ l := by
  unfold trimTrailingZeros at hx
  rw [List.mem_reverse] at hx
  have hsub := List.dropWhile_sublist (l := l.reverse) (fun x : Nat => x = 0)
  have := hsub.subset hx
  rwa [List.mem_reverse] at this

/-- A trimmed digit list never ends in a zero digit. -/
theorem trimTrailingZeros_ne_append_zero (l ys : List Nat) :
    trimTrailingZeros l ≠ ys ++ [0] := by
  intro h
  have hrev : (trimTrailingZeros l).reverse = 0 :: ys.reverse := by
    rw [h, List.reverse_append]
    rfl
  unfold trimTrailingZeros at hrev
  rw [List.reverse_reverse] at hrev
  have hsome : (l.reverse.dropWhile (fun x : Nat => x = 0)).head? = some 0 := by
    rw [hrev]
    rfl
  have hnot := List.head?_dropWhile_not (fun x : Nat => x = 0) l.reverse
  rw [hsome] at hnot
  simp at hnot

/-- Code point of a digit character. -/
theorem digitChar_toNat (d : Nat) (hd : d < 10) : (digitChar d).toNat = 48 + d := by
  interval_cases d <;> decide

/-- Digit characters are injective on digit values. -/
theorem digitChar_injOn (a b : Nat) (ha : a < 10) (hb : b < 10)
    (h : digitChar a = digitChar b) : a = b := by
  have h2 := congrArg Char.toNat h
  rw [digitChar_toNat a ha, digitChar_toNat b hb] at h2
  omega

/-- A digit character is never the dot. -/
theorem digitChar_ne_dot (d : Nat) (hd : d < 10) : digitChar d ≠ '.' := by
  interval_cases d <;> decide

/-- No character of a rendered natural number is the dot. -/
theorem natToChars_ne_dot (n : Nat) : ∀ c ∈ natToChars n, c ≠ '.' := by
  intro c hc
  unfold natToChars at hc
  by_cases h0 : n = 0
  · subst h0
    simp at hc
    subst hc
    decide
  · rw [if_neg h0, List.mem_map] at hc
    obtain ⟨d, hd, rfl⟩ := hc
    exact digitChar_ne_dot d (natDigitsBE_lt n d hd)

/-- Mapping digit values to characters is injective on digit lists. -/
theorem map_digitChar_inj (l1 l2 : List Nat) (h1 : ∀ x ∈ l1, x < 10)
    (h2 : ∀ x ∈ l2, x < 10) (h : l1.map digitChar = l2.map digitChar) : l1 = l2 := by
  induction l1 generalizing l2 with
  | nil =>
    cases l2 with
    | nil => rfl
    | cons b bs => simp at h
  | cons a as ih =>
    cases l2 with
    | nil => simp at h
    | cons b bs =>
      simp only [List.map_cons, List.cons.injEq] at h
      have hab : a = b :=
        digitChar_injOn a b (h1 a (by simp)) (h2 b (by simp)) h.1
      subst hab
      rw [ih bs (fun x hx => h1 x (List.mem_cons_of_mem a hx))
        (fun x hx => h2 x (List.mem_cons_of_mem a hx)) h.2]

/-- Value of a digit list with one digit appended at the end. -/
theorem beVal_append_singleton (l : List Nat) (x : Nat) :
    beVal (l ++ [x]) = beVal l * 10 + x := by
  rw [beVal_append]
  simp [beVal, Nat.ofDigits]

/-- Reading back the characters of a digit list recovers its value. -/
theorem charDigitsVal_map_digitChar (l : List Nat) (hl : ∀ x ∈ l, x < 10) :
    charDigitsVal (l.map digitChar) = beVal l := by
  induction l using List.reverseRecOn with
  | nil => rfl
  | append_singleton as a ih =>
    have ha : a < 10 := hl a (by simp)
    rw [List.map_append, beVal_append_singleton]
    show (as.map digitChar ++ [digitChar a]).foldl (fun a c => a * 10 + (c.toNat - 48)) 0 = _
    rw [List.foldl_append]
    show (as.map digitChar).foldl (fun a c => a * 10 + (c.toNat - 48)) 0 * 10 +
      ((digitChar a).toNat - 48) = _
    rw [digitChar_toNat a ha]
    have hih := ih (fun x hx => hl x (by simp [hx]))
    show charDigitsVal (as.map digitChar) * 10 + (48 + a - 48) = _
    rw [hih]
    omega

/-- Reading back the rendered characters of a natural number recovers it. -/
theorem charDigitsVal_natToChars (n : Nat) : charDigitsVal (natToChars n) = n := by
  unfold natToChars
  by_cases h0 : n = 0
  · subst h0
    decide
  · rw [if_neg h0, charDigitsVal_map_digitChar _ (natDigitsBE_lt n), beVal_natDigitsBE]

/-- The rendering of natural numbers as character lists is injective. -/
theorem natToChars_injective (m n : Nat) (h : natToChars m = natToChars n) : m = n := by
  have hm := charDigitsVal_natToChars m
  have hn := charDigitsVal_natToChars n
  rw [← hm, ← hn, h]

/-- Two concatenations of a dot-free prefix with a tail that is empty or
starts with a dot agree componentwise. -/
theorem append_split_at_dot (a1 : List Char) : ∀ (a2 t1 t2 : List Char),
    (∀ c ∈ a1, c ≠ '.') → (∀ c ∈ a2, c ≠ '.') →
    (t1 = [] ∨ ∃ r, t1 = '.' :: r) → (t2 = [] ∨ ∃ r, t2 = '.' :: r) →
    a1 ++ t1 = a2 ++ t2 → a1 = a2 ∧ t1 = t2 := by
  induction a1 with
  | nil =>
    intro a2 t1 t2 h1 h2 s1 s2 h
    cases a2 with
    | nil => exact ⟨rfl, by simpa using h⟩
    | cons b bs =>
      exfalso
      simp only [List.nil_append, List.cons_append] at h
      rcases s1 with rfl | ⟨r, rfl⟩
      · simp at h
      · exact h2 b (by simp) (List.head_eq_of_cons_eq h).symm
  | cons a as ih =>
    intro a2 t1 t2 h1 h2 s1 s2 h
    cases a2 with
    | nil =>
      exfalso
      simp only [List.cons_append, List.nil_append] at h
      rcases s2 with rfl | ⟨r, rfl⟩
      · simp at h
      · exact h1 a (by simp) (List.head_eq_of_cons_eq h)
    | cons b bs =>
      simp only [List.cons_append, List.cons.injEq] at h
      obtain ⟨rfl, htail⟩ := h
      have hr := ih bs t1 t2 (fun c hc => h1 c (by simp [hc]))
        (fun c hc => h2 c (by simp [hc])) s1 s2 htail
      exact ⟨by rw [hr.1], hr.2⟩

/-- A number below `10 ^ d` has at most `d` decimal digits. -/
theorem digits_length_le (r d : Nat) (h : r < 10 ^ d) : (Nat.digits 10 r).length ≤ d := by
  by_cases h0 : r = 0
  · subst h0
    simp
  · by_contra hlen
    push_neg at hlen
    have h1 := Nat.base_pow_length_digits_le 10 r (by norm_num) h0
    have h2 : (10 : Nat) ^ (d + 1) ≤ 10 ^ (Nat.digits 10 r).length :=
      Nat.pow_le_pow_right (by norm_num) hlen
    have h4 : 10 * 10 ^ d ≤ 10 * r := by
      calc 10 * 10 ^ d = 10 ^ (d + 1) := by ring
        _ ≤ 10 ^ (Nat.digits 10 r).length := h2
        _ ≤ 10 * r := h1
    have h5 : 10 ^ d ≤ r := Nat.le_of_mul_le_mul_left h4 (by norm_num)
    omega

/-- The fractional digit block of the formatting pipeline determines the
remainder: its value scaled by the trimmed zero count recovers
`v % 10 ^ d`, and its length plus that count is `d`. -/
theorem frac_block (v d : Nat) :
    ∃ k, k + (trimTrailingZeros (padLeftZeros d (natDigitsBE (v % 10 ^ d)))).length = d ∧
      beVal (trimTrailingZeros (padLeftZeros d (natDigitsBE (v % 10 ^ d)))) * 10 ^ k
        = v % 10 ^ d := by
  have hrlt : v % 10 ^ d < 10 ^ d := Nat.mod_lt _ (Nat.pos_pow_of_pos d (by norm_num))
  have hlenBE : (natDigitsBE (v % 10 ^ d)).length ≤ d := by
    unfold natDigitsBE
    rw [List.length_reverse, natDigitsLE_eq_digits]
    exact digits_length_le _ d hrlt
  have hlen : (padLeftZeros d (natDigitsBE (v % 10 ^ d))).length = d :=
    length_padLeftZeros d _ hlenBE
  have hval : beVal (padLeftZeros d (natDigitsBE (v % 10 ^ d))) = v % 10 ^ d := by
    rw [beVal_padLeftZeros, beVal_natDigitsBE]
  obtain ⟨k, hk⟩ := trimTrailingZeros_spec (padLeftZeros d (natDigitsBE (v % 10 ^ d)))
  refine ⟨k, ?_, ?_⟩
  · have hlk := congrArg List.length hk
    simp only [List.length_append, List.length_replicate] at hlk
    omega
  · have hbk := congrArg beVal hk
    rw [beVal_append, beVal_replicate_zero, List.length_replicate] at hbk
    omega

/-- Every digit of the fractional block is below the base. -/
theorem frac_block_lt (v d : Nat) :
    ∀ x ∈ trimTrailingZeros (padLeftZeros d (natDigitsBE (v % 10 ^ d))), x < 10 := by
  intro x hx
  exact padLeftZeros_lt d _ (natDigitsBE_lt _) x (trimTrailingZeros_mem _ x hx)

/-- If splitting a number at two different digit positions produces the same
integer part and the same scaled fraction value, both parts are zero. -/
theorem sum_pow_mul_eq_zero (i c d1 d2 k1 k2 : Nat) (hd : d1 < d2) (hk : k1 < k2)
    (h : 10 ^ d1 * i + c * 10 ^ k1 = 10 ^ d2 * i + c * 10 ^ k2) : i = 0 ∧ c = 0 := by
  have hp1 : (10 : Nat) ^ d1 < 10 ^ d2 := Nat.pow_lt_pow_right (by norm_num) hd
  have hp2 : (10 : Nat) ^ k1 < 10 ^ k2 := Nat.pow_lt_pow_right (by norm_num) hk
  have ha : 10 ^ d1 * i ≤ 10 ^ d2 * i := Nat.mul_le_mul hp1.le le_rfl
  have hb : c * 10 ^ k1 ≤ c * 10 ^ k2 := Nat.mul_le_mul le_rfl hp2.le
  have heqa : 10 ^ d1 * i = 10 ^ d2 * i := by omega
  have heqb : c * 10 ^ k1 = c * 10 ^ k2 := by omega
  constructor
  · by_contra h0
    have hpos : 0 < i := Nat.pos_of_ne_zero h0
    have hpp := Nat.eq_of_mul_eq_mul_right hpos heqa
    omega
  · by_contra h0
    have hpos : 0 < c := Nat.pos_of_ne_zero h0
    have hpp := Nat.eq_of_mul_eq_mul_left hpos heqb
    omega

/-- A number whose division and remainder data at two distinct digit
positions coincide (same integer part, same fraction digits) is zero. -/
theorem format_values_zero (v d1 d2 L c : Nat) (hne : d1 ≠ d2)
    (hi : v / 10 ^ d1 = v / 10 ^ d2)
    (hk1 : ∃ k1, k1 + L = d1 ∧ c * 10 ^ k1 = v % 10 ^ d1)
    (hk2 : ∃ k2, k2 + L = d2 ∧ c * 10 ^ k2 = v % 10 ^ d2) : v = 0 := by
  obtain ⟨k1, hk1l, hk1v⟩ := hk1
  obtain ⟨k2, hk2l, hk2v⟩ := hk2
  have e1 : 10 ^ d1 * (v / 10 ^ d1) + c * 10 ^ k1 = v := by
    rw [hk1v]
    exact Nat.div_add_mod v _
  have e2 : 10 ^ d2 * (v / 10 ^ d1) + c * 10 ^ k2 = v := by
    rw [hi, hk2v]
    exact Nat.div_add_mod v _
  rcases Nat.lt_or_ge d1 d2 with hlt | hge
  · have hkk : k1 < k2 := by omega
    obtain ⟨hi0, hc0⟩ := sum_pow_mul_eq_zero (v / 10 ^ d1) c d1 d2 k1 k2 hlt hkk (by omega)
    rw [hi0, hc0] at e1
    simpa using e1.symm
  · have hlt2 : d2 < d1 := by omega
    have hkk : k2 < k1 := by omega
    obtain ⟨hi0, hc0⟩ := sum_pow_mul_eq_zero (v / 10 ^ d1) c d2 d1 k2 k1 hlt2 hkk (by omega)
    rw [hi0, hc0] at e1
    simpa using e1.symm

/-- Two viem renderings of the same value at different decimal positions can
agree only when the value is zero. -/
theorem viemFormatUnits_eq_imp (v d1 d2 : Nat)
    (h : viemFormatUnits v d1 = viemFormatUnits v d2) : v = 0 ∨ d1 = d2 := by
  by_cases hd : d1 = d2
  · exact Or.inr hd
  left
  obtain ⟨hint, htail⟩ :=
    append_split_at_dot (natToChars (v / 10 ^ d1)) (natToChars (v / 10 ^ d2))
      (if trimTrailingZeros (padLeftZeros d1 (natDigitsBE (v % 10 ^ d1))) = [] then []
        else '.' ::
          (trimTrailingZeros (padLeftZeros d1 (natDigitsBE (v % 10 ^ d1)))).map digitChar)
      (if trimTrailingZeros (padLeftZeros d2 (natDigitsBE (v % 10 ^ d2))) = [] then []
        else '.' ::
          (trimTrailingZeros (padLeftZeros d2 (natDigitsBE (v % 10 ^ d2)))).map digitChar)
      (natToChars_ne_dot _) (natToChars_ne_dot _)
      (by
        by_cases hF : trimTrailingZeros (padLeftZeros d1 (natDigitsBE (v % 10 ^ d1))) = []
        · rw [if_pos hF]
          exact Or.inl rfl
        · rw [if_neg hF]
          exact Or.inr ⟨_, rfl⟩)
      (by
        by_cases hF : trimTrailingZeros (padLeftZeros d2 (natDigitsBE (v % 10 ^ d2))) = []
        · rw [if_pos hF]
          exact Or.inl rfl
        · rw [if_neg hF]
          exact Or.inr ⟨_, rfl⟩)
      (congrArg String.data h)
  have hieq : v / 10 ^ d1 = v / 10 ^ d2 := natToChars_injective _ _ hint
  have hFeq : trimTrailingZeros (padLeftZeros d1 (natDigitsBE (v % 10 ^ d1)))
      = trimTrailingZeros (padLeftZeros d2 (natDigitsBE (v % 10 ^ d2))) := by
    by_cases h1 : trimTrailingZeros (padLeftZeros d1 (natDigitsBE (v % 10 ^ d1))) = [] <;>
      by_cases h2 : trimTrailingZeros (padLeftZeros d2 (natDigitsBE (v % 10 ^ d2))) = []
    · rw [h1, h2]
    · rw [if_pos h1, if_neg h2] at htail
      simp at htail
    · rw [if_neg h1, if_pos h2] at htail
      simp at htail
    · rw [if_neg h1, if_neg h2] at htail
      exact map_digitChar_inj _ _ (frac_block_lt v d1) (frac_block_lt v d2)
        (List.tail_eq_of_cons_eq htail)
  obtain ⟨k1, hk1l, hk1v⟩ := frac_block v d1
  obtain ⟨k2, hk2l, hk2v⟩ := frac_block v d2
  refine format_values_zero v d1 d2
    (trimTrailingZeros (padLeftZeros d1 (natDigitsBE (v % 10 ^ d1)))).length
    (beVal (trimTrailingZeros (padLeftZeros d1 (natDigitsBE (v % 10 ^ d1))))) hd hieq
    ⟨k1, hk1l, hk1v⟩ ⟨k2, ?_, ?_⟩
  · rw [hFeq]
    exact hk2l
  · rw [hFeq]
    exact hk2v

/-- Two ethers renderings of the same value at different decimal positions
can agree only when the value is zero. -/
theorem ethersFormatUnits_eq_imp (v d1 d2 : Nat)
    (h : ethersFormatUnits v d1 = ethersFormatUnits v d2) : v = 0 ∨ d1 = d2 := by
  by_cases hd : d1 = d2
  · exact Or.inr hd
  left
  obtain ⟨hint, htail⟩ :=
    append_split_at_dot (natToChars (v / 10 ^ d1)) (natToChars (v / 10 ^ d2))
      ('.' :: (if trimTrailingZeros (padLeftZeros d1 (natDigitsBE (v % 10 ^ d1))) = []
        then ['0']
        else (trimTrailingZeros (padLeftZeros d1 (natDigitsBE (v % 10 ^ d1)))).map digitChar))
      ('.' :: (if trimTrailingZeros (padLeftZeros d2 (natDigitsBE (v % 10 ^ d2))) = []
        then ['0']
        else (trimTrailingZeros (padLeftZeros d2 (natDigitsBE (v % 10 ^ d2)))).map digitChar))
      (natToChars_ne_dot _) (natToChars_ne_dot _)
      (Or.inr ⟨_, rfl⟩) (Or.inr ⟨_, rfl⟩)
      (congrArg String.data h)
  have hieq : v / 10 ^ d1 = v / 10 ^ d2 := natToChars_injective _ _ hint
  have htail2 := List.tail_eq_of_cons_eq htail
  have hFeq : trimTrailingZeros (padLeftZeros d1 (natDigitsBE (v % 10 ^ d1)))
      = trimTrailingZeros (padLeftZeros d2 (natDigitsBE (v % 10 ^ d2))) := by
    by_cases h1 : trimTrailingZeros (padLeftZeros d1 (natDigitsBE (v % 10 ^ d1))) = [] <;>
      by_cases h2 : trimTrailingZeros (padLeftZeros d2 (natDigitsBE (v % 10 ^ d2))) = []
    · rw [h1, h2]
    · exfalso
      rw [if_pos h1, if_neg h2] at htail2
      have hzero : trimTrailingZeros (padLeftZeros d2 (natDigitsBE (v % 10 ^ d2))) = [0] := by
        have hmap : List.map digitChar [0] =
            (trimTrailingZeros (padLeftZeros d2 (natDigitsBE (v % 10 ^ d2)))).map digitChar := by
          simpa using htail2
        exact (map_digitChar_inj _ _ (by intro x hx; simp at hx; omega)
          (frac_block_lt v d2) hmap).symm
      exact trimTrailingZeros_ne_append_zero _ [] (by simpa using hzero)
    · exfalso
      rw [if_neg h1, if_pos h2] at htail2
      have hzero : trimTrailingZeros (padLeftZeros d1 (natDigitsBE (v % 10 ^ d1))) = [0] := by
        have hmap : List.map digitChar [0] =
            (trimTrailingZeros (padLeftZeros d1 (natDigitsBE (v % 10 ^ d1)))).map digitChar := by
          simpa using htail2.symm
        exact (map_digitChar_inj _ _ (by intro x hx; simp at hx; omega)
          (frac_block_lt v d1) hmap).symm
      exact trimTrailingZeros_ne_append_zero _ [] (by simpa using hzero)
    · rw [if_neg h1, if_neg h2] at htail2
      exact map_digitChar_inj _ _ (frac_block_lt v d1) (frac_block_lt v d2) htail2
  obtain ⟨k1, hk1l, hk1v⟩ := frac_block v d1
  obtain ⟨k2, hk2l, hk2v⟩ := frac_block v d2
  refine format_values_zero v d1 d2
    (trimTrailingZeros (padLeftZeros d1 (natDigitsBE (v % 10 ^ d1)))).length
    (beVal (trimTrailingZeros (padLeftZeros d1 (natDigitsBE (v % 10 ^ d1))))) hd hieq
    ⟨k1, hk1l, hk1v⟩ ⟨k2, ?_, ?_⟩
  · rw [hFeq]
    exact hk2l
  · rw [hFeq]
    exact hk2v

/-- C1: every write operation run through `executeTransaction` passes through
exactly the states pending, then confirming carrying the submitted hash, then
success carrying the same hash; and a throw at the simulate, submit or wait
step makes the state the error state carrying the normalized error, which is
also re-raised to the caller. -/
theorem claim1_executeTransaction_lifecycle {σ : Type} (env : ExecEnv σ)
    (fn : String) (args : List CallArg) :
    (∃ q h, env.simulateContract fn args = .ok q ∧ env.writeContract q = .ok h ∧
      env.waitForTransactionReceipt h = .ok () ∧
      executeTransaction (some ()) (some ()) env fn args =
        ⟨[.pending, .confirming h, .success h], [none], [(fn, args)], [q], [h], .ok h⟩) ∨
    (∃ t, env.simulateContract fn args = .error t ∧
      executeTransaction (some ()) (some ()) env fn args =
        ⟨[.pending, .error (normalizeError t)], [none, some (normalizeError t)],
          [(fn, args)], [], [], .error (normalizeError t)⟩) ∨
    (∃ q t, env.simulateContract fn args = .ok q ∧ env.writeContract q = .error t ∧
      executeTransaction (some ()) (some ()) env fn args =
        ⟨[.pending, .error (normalizeError t)], [none, some (normalizeError t)],
          [(fn, args)], [q], [], .error (normalizeError t)⟩) ∨
    (∃ q h t, env.simulateContract fn args = .ok q ∧ env.writeContract q = .ok h ∧
      env.waitForTransactionReceipt h = .error t ∧
      executeTransaction (some ()) (some ()) env fn args =
        ⟨[.pending, .confirming h, .error (normalizeError t)],
          [none, some (normalizeError t)], [(fn, args)], [q], [h],
          .error (normalizeError t)⟩) := by
  cases hsim : env.simulateContract fn args with
  | error t =>
    exact Or.inr (Or.inl ⟨t, rfl, by simp [executeTransaction, hsim]⟩)
  | ok q =>
    cases hw : env.writeContract q with
    | error t =>
      exact Or.inr (Or.inr (Or.inl ⟨q, t, rfl, hw, by simp [executeTransaction, hsim, hw]⟩))
    | ok h =>
      cases hwait : env.waitForTransactionReceipt h with
      | error t =>
        exact Or.inr (Or.inr (Or.inr ⟨q, h, t, rfl, hw, hwait,
          by simp [executeTransaction, hsim, hw, hwait]⟩))
      | ok u =>
        cases u
        exact Or.inl ⟨q, h, rfl, hw, hwait, by simp [executeTransaction, hsim, hw, hwait]⟩

/-- C3: a token whose totalSupply read returns 1000000000000000000000 and
whose decimals read returns 18 yields formatted total supply "1000" in the
hook snapshot (viem formatting) and "1000.0" in the lib snapshot (ethers
formatting); both are exact representations of the rational
totalSupply / 10 ^ decimals, as parsing "1000" back at 18 decimals recovers
the raw total supply. -/
theorem claim3_formatted_total_supply (contractAddress n s ow : String) (p : Bool)
    (prev : AsyncState TokenInfo) :
    (refetchTokenInfo (some ()) contractAddress prev
        ⟨.ok n, .ok s, .ok 18, .ok 1000000000000000000000, .ok ow, .ok p⟩).finalState =
      .success ⟨contractAddress, n, s, 18, 1000000000000000000000, "1000", ow, p⟩ ∧
    getTokenInfo contractAddress
        ⟨.ok n, .ok s, .ok 18, .ok 1000000000000000000000, .ok ow, .ok p⟩ =
      .ok ⟨contractAddress, n, s, 18, 1000000000000000000000, "1000.0", ow, p⟩ ∧
    viemParseUnits "1000" TOKEN_DECIMALS = 1000000000000000000000 := by
  have hviem : viemFormatUnits 1000000000000000000000 18 = "1000" := by decide
  have hethers : ethersFormatUnits 1000000000000000000000 18 = "1000.0" := by decide
  refine ⟨?_, ?_, by decide⟩
  · simp [refetchTokenInfo, promiseAll6, Bind.bind, Except.bind, Pure.pure, Except.pure, hviem]
  · simp [getTokenInfo, promiseAll6, Bind.bind, Except.bind, Pure.pure, Except.pure, hethers]

/-- C4: a transfer of the decimal amount "5.5" at the fixed 18-decimal
configuration issues the gateway transfer call with raw integer amount
exactly 5500000000000000000. -/
theorem claim4_transfer_amount_encoding {σ : Type} (env : ExecEnv σ) (toAddr : String) :
    (transfer (some ()) (some ()) env toAddr "5.5").simulateCalls =
      [("transfer", [CallArg.addr toAddr, CallArg.uint 5500000000000000000])] ∧
    viemParseUnits "5.5" TOKEN_DECIMALS = 5500000000000000000 := by
  have hparse : viemParseUnits "5.5" TOKEN_DECIMALS = 5500000000000000000 := by decide
  constructor
  · unfold transfer
    rw [hparse]
    exact executeTransaction_simulateCalls env "transfer" _
  · exact hparse

/-- C6: `isTokenRegistered` returns false on any failing factory read rather
than propagating the error, and on a successful read returns true exactly
when some returned address equals the queried token address
case-insensitively. -/
theorem claim6_isTokenRegistered (tokenAddress : String) :
    (∀ t, isTokenRegistered tokenAddress (.error t) = false) ∧
    (∀ l, isTokenRegistered tokenAddress (.ok l) = true ↔
      ∃ a ∈ l, lowerStr a = lowerStr tokenAddress) := by
  refine ⟨fun t => rfl, fun l => ?_⟩
  simp [isTokenRegistered, List.any_eq_true, beq_iff_eq]

/-- C7: a balance refresh with no account address (or no read client) resets
the balance state to idle, raises no error, and issues no gateway read. -/
theorem claim7_refetchBalance_missing_params :
    (∀ ua prev read, refetchBalance none ua prev read = ⟨.idle, [.idle], 0, .ok ()⟩) ∧
    (∀ pc prev read, refetchBalance pc none prev read = ⟨.idle, [.idle], 0, .ok ()⟩) ∧
    (∀ pc prev read, refetchBalance pc (some "") prev read = ⟨.idle, [.idle], 0, .ok ()⟩) := by
  refine ⟨fun ua prev read => ?_, fun pc prev read => ?_, fun pc prev read => ?_⟩ <;>
    simp [refetchBalance, jsFalsyOptStr]

/-- C8: operations with a missing precondition raise synchronously before any
network call: deployToken with no private key, getAllowance with no read
client or no user address, and a write operation with no wallet client each
produce the precondition error with zero gateway interactions. -/
theorem claim8_missing_preconditions :
    (∀ prev fetchResult, deployToken none prev fetchResult =
      ⟨prev, [], [], false, .error ⟨"Private key is required for deployment"⟩⟩) ∧
    (∀ ua read, getAllowance none ua read =
      (.error (.err ⟨"Public client and user address are required"⟩), 0)) ∧
    (∀ pc read, getAllowance pc none read =
      (.error (.err ⟨"Public client and user address are required"⟩), 0)) ∧
    (∀ (σ : Type) (pc : Option Unit) (env : ExecEnv σ) (fn : String) (args : List CallArg),
      executeTransaction none pc env fn args =
        ⟨[], [], [], [], [], .error ⟨"Wallet client is required for transactions"⟩⟩) := by
  refine ⟨fun prev fetchResult => ?_, fun ua read => ?_, fun pc read => ?_,
    fun σ pc env fn args => ?_⟩
  · simp [deployToken, jsFalsyOptStr]
  · simp [getAllowance]
  · simp [getAllowance, jsFalsyOptStr]
  · simp [executeTransaction]

/-- C10: a token-info refresh with no read client leaves the tokenInfo state
entirely unchanged and issues no gateway call, unlike the balance refresh
which resets its state to idle in the analogous case. -/
theorem claim10_refetchTokenInfo_frame :
    (∀ contractAddress prev env,
      refetchTokenInfo none contractAddress prev env = ⟨prev, [], 0⟩) ∧
    (∀ ua prev read, refetchBalance none ua prev read = ⟨.idle, [.idle], 0, .ok ()⟩) := by
  refine ⟨fun contractAddress prev env => rfl, fun ua prev read => ?_⟩
  simp [refetchBalance]

/-- C2 (amended): a non-2xx gateway response whose JSON body carries a
non-empty error string makes deployToken finish in the error state carrying
exactly that string, which is also re-thrown to the caller; an empty error
string instead falls back to the status message. -/
theorem claim2_deploy_gateway_error (pk : String) (hpk : pk ≠ "")
    (prev : DeploymentState) (status : Nat) (b : DeployResponseBody) (s : String)
    (hb : b.error = some s) (hs : s ≠ "") :
    deployToken (some pk) prev (.ok ⟨false, status, .ok b⟩) =
      ⟨.error ⟨s⟩, [.deploying, .error ⟨s⟩], [none, some ⟨s⟩], true, .error ⟨s⟩⟩ := by
  simp [deployToken, jsFalsyOptStr, hpk, deployERC20TokenViaAPI, hb, jsStringOr, hs,
    normalizeError]

/-- Witness for C2 at the spec's concrete scenario: HTTP 500 with body error
"insufficient funds". -/
theorem claim2_deploy_gateway_error_witness :
    ("0xkey" ≠ "" ∧
      (⟨some "insufficient funds", none, none, false, none, none, none⟩ :
        DeployResponseBody).error = some "insufficient funds" ∧
      "insufficient funds" ≠ "") ∧
    deployToken (some "0xkey") .idle
        (.ok ⟨false, 500, .ok ⟨some "insufficient funds", none, none, false, none, none, none⟩⟩) =
      ⟨.error ⟨"insufficient funds"⟩, [.deploying, .error ⟨"insufficient funds"⟩],
        [none, some ⟨"insufficient funds"⟩], true, .error ⟨"insufficient funds"⟩⟩ :=
  ⟨⟨by decide, rfl, by decide⟩,
    claim2_deploy_gateway_error "0xkey" (by decide) .idle 500 _ "insufficient funds" rfl
      (by decide)⟩

/-- Counterexample to C2 as stated: a body whose error field holds the empty
string yields the fallback status message, not the body's error string. -/
theorem claim2_counterexample :
    (deployToken (some "0xkey") .idle
        (.ok ⟨false, 500, .ok ⟨some "", none, none, false, none, none, none⟩⟩)).finalState =
      .error ⟨"Deployment failed with status 500"⟩ ∧
    "Deployment failed with status 500" ≠ "" := by
  exact ⟨by decide, by decide⟩

/-- C5 (amended): a 2xx gateway response maps to a result carrying
tokenAddress, success, deployOutput, initOutput and registerOutput verbatim,
while txHash is passed through only when present and non-empty and is
otherwise replaced by "0x". -/
theorem claim5_deploy_result_passthrough (status : Nat) (b : DeployResponseBody) :
    deployERC20TokenViaAPI (.ok ⟨true, status, .ok b⟩) =
      .ok ⟨b.tokenAddress, jsStringOr b.txHash "0x", b.success,
        b.deployOutput, b.initOutput, b.registerOutput⟩ := by
  simp [deployERC20TokenViaAPI]

/-- Counterexample to C5 as stated: a 2xx response whose txHash field is the
empty string is not passed through verbatim, the result carrying "0x"
instead. -/
theorem claim5_counterexample :
    deployERC20TokenViaAPI
        (.ok ⟨true, 200, .ok ⟨none, some "0xabc", some "", true, none, none, none⟩⟩) =
      .ok ⟨some "0xabc", "0x", true, none, none, none⟩ ∧ "0x" ≠ "" := by
  exact ⟨by decide, by decide⟩

/-- C9 (amended): balance and allowance formatting always use the fixed
constant of 18 decimals (`TOKEN_DECIMALS`), not the token's fetched decimals,
while only the token-info snapshot formats with the fetched decimals; hence
for any token decimals different from 18 and any nonzero raw amount, the
formatted string differs from the canonical rendering of
raw / 10 ^ decimals (at raw amount 0 the two renderings coincide). -/
theorem claim9_fixed_decimals_formatting :
    TOKEN_DECIMALS = 18 ∧
    (∀ (v : Nat) (prev : AsyncState BalanceInfo) (ua : String), ua ≠ "" →
      refetchBalance (some ()) (some ua) prev (.ok v) =
        ⟨.success ⟨v, viemFormatUnits v TOKEN_DECIMALS⟩,
          [.loading, .success ⟨v, viemFormatUnits v TOKEN_DECIMALS⟩], 1, .ok ()⟩) ∧
    (∀ (v : Nat) (ua : String), ua ≠ "" →
      getAllowance (some ()) (some ua) (.ok v) =
        (.ok ⟨v, viemFormatUnits v TOKEN_DECIMALS⟩, 1)) ∧
    (∀ v : Nat, getBalance (.ok v) = .ok ⟨v, ethersFormatUnits v TOKEN_DECIMALS⟩) ∧
    (∀ (ca n s ow : String) (dec ts : Nat) (p : Bool) (prev : AsyncState TokenInfo),
      (refetchTokenInfo (some ()) ca prev
          ⟨.ok n, .ok s, .ok dec, .ok ts, .ok ow, .ok p⟩).finalState =
        .success ⟨ca, n, s, dec, ts, viemFormatUnits ts dec, ow, p⟩) ∧
    (∀ (v d : Nat), v ≠ 0 → d ≠ TOKEN_DECIMALS →
      viemFormatUnits v TOKEN_DECIMALS ≠ viemFormatUnits v d ∧
      ethersFormatUnits v TOKEN_DECIMALS ≠ ethersFormatUnits v d) := by
  refine ⟨rfl, ?_, ?_, ?_, ?_, ?_⟩
  · intro v prev ua hua
    simp [refetchBalance, jsFalsyOptStr, hua]
  · intro v ua hua
    simp [getAllowance, jsFalsyOptStr, hua]
  · intro v
    rfl
  · intro ca n s ow dec ts p prev
    simp [refetchTokenInfo, promiseAll6, Bind.bind, Except.bind, Pure.pure, Except.pure]
  · intro v d hv hd
    constructor
    · intro h
      rcases viemFormatUnits_eq_imp v TOKEN_DECIMALS d h with h0 | h18
      · exact hv h0
      · exact hd h18.symm
    · intro h
      rcases ethersFormatUnits_eq_imp v TOKEN_DECIMALS d h with h0 | h18
      · exact hv h0
      · exact hd h18.symm

/-- Witness for C9 at a concrete instance: user address "0xuser", raw amount
1, token decimals 6. -/
theorem claim9_fixed_decimals_formatting_witness :
    (("0xuser" : String) ≠ "" ∧ (1 : Nat) ≠ 0 ∧ (6 : Nat) ≠ TOKEN_DECIMALS) ∧
    refetchBalance (some ()) (some "0xuser") .idle (.ok 1) =
      ⟨.success ⟨1, viemFormatUnits 1 TOKEN_DECIMALS⟩,
        [.loading, .success ⟨1, viemFormatUnits 1 TOKEN_DECIMALS⟩], 1, .ok ()⟩ ∧
    viemFormatUnits 1 TOKEN_DECIMALS ≠ viemFormatUnits 1 6 ∧
    ethersFormatUnits 1 TOKEN_DECIMALS ≠ ethersFormatUnits 1 6 :=
  ⟨⟨by decide, by decide, by decide⟩,
    claim9_fixed_decimals_formatting.2.1 1 .idle "0xuser" (by decide),
    (claim9_fixed_decimals_formatting.2.2.2.2.2 1 6 (by decide) (by decide)).1,
    (claim9_fixed_decimals_formatting.2.2.2.2.2 1 6 (by decide) (by decide)).2⟩

/-- Counterexample to C9 as stated: for a token with 6 decimals and raw
balance 0, the balance formatted string (computed at the fixed 18 decimals)
does equal the canonical rendering of 0 / 10 ^ 6. -/
theorem claim9_counterexample :
    (refetchBalance (some ()) (some "0xuser") .idle (.ok 0)).finalState =
      .success ⟨0, viemFormatUnits 0 6⟩ ∧ (6 : Nat) ≠ 18 := by
  exact ⟨by decide, by decide⟩

end ERC20Front
